import Mathlib

/-!
Verification of the DAEMON autonomy engine (`autonomy_engine` Python package)
against its natural-language specification.

The Python code is shallowly embedded: Python floats are modelled as exact
rationals (`ℚ`), Python's loosely-typed JSON-ish values as the inductive
`PyVal`, dictionaries as insertion-ordered association lists, and fallible
calls (functions that may raise) as `Except String`.  Each definition below is
translated from the named source function; external-service calls
(`responses_json_schema`) are modelled by passing their outcome in as an
`Except` parameter, since the services are outside the repository.
-/

namespace Daemon

/-- A Python/JSON-ish runtime value, as the engine passes them around
(manifests, plans, patches, cache entries).  `vnum` covers Python `int` and
`float` (both exact here); `vbool` is kept separate so that Python's
`isinstance(x, bool)` checks can be expressed, while checks that accept
`bool` as a number (Python's `bool` is a subclass of `int`) are modelled by
`pyIsNum` below. -/
inductive PyVal where
  | vnone : PyVal
  | vbool : Bool → PyVal
  | vnum : ℚ → PyVal
  | vstr : String → PyVal
  | vlist : List PyVal → PyVal
  | vdict : List (String × PyVal) → PyVal
deriving Repr

/-- Decidable equality for `PyVal` (structural, as for parsed JSON). -/
def PyVal.beq : PyVal → PyVal → Bool
  | .vnone, .vnone => true
  | .vbool a, .vbool b => a == b
  | .vnum a, .vnum b => a == b
  | .vstr a, .vstr b => a == b
  | .vlist a, .vlist b => beqList a b
  | .vdict a, .vdict b => beqDict a b
  | _, _ => false
where
  beqList : List PyVal → List PyVal → Bool
    | [], [] => true
    | x :: xs, y :: ys => x.beq y && beqList xs ys
    | _, _ => false
  beqDict : List (String × PyVal) → List (String × PyVal) → Bool
    | [], [] => true
    | (k, x) :: xs, (l, y) :: ys => k == l && x.beq y && beqDict xs ys
    | _, _ => false

/-- `dict.get(k)`: first binding of `k`, `None`-as-`none` when absent. -/
def dget (kv : List (String × PyVal)) (k : String) : Option PyVal :=
  (kv.find? (fun p => p.1 == k)).map (·.2)

/-- Python dict assignment `d[k] = v`: replaces the existing binding in place,
else appends (insertion order preserved). -/
def dset (kv : List (String × PyVal)) (k : String) (v : PyVal) : List (String × PyVal) :=
  if kv.any (fun p => p.1 == k) then
    kv.map (fun p => if p.1 == k then (k, v) else p)
  else kv ++ [(k, v)]

/-- Lookup with default on a typed association map (`d.get(k, default)`). -/
def getD {κ α : Type} [BEq κ] (m : List (κ × α)) (k : κ) (d : α) : α :=
  ((m.find? (fun p => p.1 == k)).map (·.2)).getD d

/-- Typed dict assignment (same semantics as `dset`). -/
def aset {κ α : Type} [BEq κ] (m : List (κ × α)) (k : κ) (v : α) : List (κ × α) :=
  if m.any (fun p => p.1 == k) then
    m.map (fun p => if p.1 == k then (k, v) else p)
  else m ++ [(k, v)]

/-- Python truthiness of a value (`bool(x)`). -/
def pyTruthy : PyVal → Bool
  | .vnone => false
  | .vbool b => b
  | .vnum q => q != 0
  | .vstr s => !s.isEmpty
  | .vlist xs => !xs.isEmpty
  | .vdict kv => !kv.isEmpty

/-- `isinstance(x, (int, float))` — true for Python numbers *including*
`bool`, which is a subclass of `int`. -/
def pyIsNum : Option PyVal → Bool
  | some (.vnum _) => true
  | some (.vbool _) => true
  | _ => false

/-- `float(x)` for the value shapes the engine feeds it: numbers are exact,
`bool` becomes 0/1.  `float` of a string parses or raises in Python and
`float` of other values raises; those cases never arise on the values the
engine produces and are mapped to the supplied default. -/
def pyFloat (v : Option PyVal) (d : ℚ) : ℚ :=
  match v with
  | some (.vnum q) => q
  | some (.vbool b) => if b then 1 else 0
  | _ => d

/-- `str(x or default)` as the source applies it to manifest/JSON fields that
are strings when present: a truthy string passes through, any falsy value
yields the default.  `str` of a truthy non-string value produces its repr,
which never arises on the fields the engine reads and is mapped to the
default. -/
def pyStrOr (v : Option PyVal) (d : String) : String :=
  match v with
  | some (.vstr s) => if s.isEmpty then d else s
  | _ => d

/-- `str(x)` on enum entries and similar fields, which are strings in every
manifest the engine consumes; non-string values (whose reprs are not
modelled) map to `""`. -/
def pyStrLoose : PyVal → String
  | .vstr s => s
  | .vbool true => "True"
  | .vbool false => "False"
  | .vnone => "None"
  | _ => ""

/-- Python `str.isspace` for a single character (the whitespace set of
CPython's `unicodedata`, used by `str.strip`). -/
def pyIsSpace (c : Char) : Bool :=
  (0x9 ≤ c.toNat && c.toNat ≤ 0xd) || (0x1c ≤ c.toNat && c.toNat ≤ 0x1f) ||
  c.toNat == 0x20 || c.toNat == 0x85 || c.toNat == 0xa0 || c.toNat == 0x1680 ||
  (0x2000 ≤ c.toNat && c.toNat ≤ 0x200a) || c.toNat == 0x2028 ||
  c.toNat == 0x2029 || c.toNat == 0x202f || c.toNat == 0x205f || c.toNat == 0x3000

/-- Python `str.strip()` (Unicode whitespace on both ends). -/
def pyStrip (s : String) : String :=
  String.mk (((s.toList.dropWhile pyIsSpace).reverse.dropWhile pyIsSpace).reverse)

/-- `sub in s` for strings (Python substring containment). -/
def strContains (s sub : String) : Bool :=
  (s.splitOn sub).length != 1

/-- `min(hi, max(lo, v))` — the `_clamp` helper repeated across the package
(`shield.py`, `policy.py`, `taskspec.py`, `plan_utils.py`). -/
def pclamp (v lo hi : ℚ) : ℚ := min hi (max lo v)

/-- Python `int(q)` on an exact value: truncation toward zero
(`Int.tdiv`, since `/` on `Int` rounds toward negative infinity). -/
def pyTrunc (q : ℚ) : Int := q.num.tdiv (q.den : Int)

/-- Python 3 `round(q)`: round half to even. -/
def pyRound (q : ℚ) : Int :=
  let f := ⌊q⌋
  if q - f < 1/2 then f
  else if q - f > 1/2 then f + 1
  else if f % 2 = 0 then f else f + 1

/-- Truthiness of an optional-string field of `CapabilityMapping`
(`if not caps.x` — `None` and `""` are both falsy). -/
def strTruthy : Option String → Bool
  | none => false
  | some s => !s.isEmpty

/-- A normalized rectangle `{x, y, w, h}` (the engine's camera and home
ROIs are always four-key float dicts, built by `_as_norm_rect` or the
dataclass defaults). -/
structure Rect where
  x : ℚ
  y : ℚ
  w : ℚ
  h : ℚ
deriving Repr, DecidableEq

/-- Horizontal coordinate of `_center(rect)` (its vertical part is unused). -/
def Rect.centerX (r : Rect) : ℚ := r.x + r.w / 2

/-- `tracker.BBox`: a detection box in normalized coordinates. -/
structure BBox where
  x : ℚ
  y : ℚ
  w : ℚ
  h : ℚ
deriving Repr, DecidableEq

/-- Horizontal coordinate of `BBox.center()`. -/
def BBox.centerX (b : BBox) : ℚ := b.x + b.w / 2

/-- `shield._contains(outer, inner)`. -/
def contains (outer : Rect) (inner : BBox) : Bool :=
  decide (inner.x ≥ outer.x) && decide (inner.y ≥ outer.y) &&
  decide (inner.x + inner.w ≤ outer.x + outer.w) &&
  decide (inner.y + inner.h ≤ outer.y + outer.h)

/-- `tracker.TrackerOutput` (the `debug` map is never read by the
shield/planner and is omitted). -/
structure TrackerOutput where
  bbox : Option BBox
  visibility_confidence : ℚ
  edge_margin : ℚ
deriving Repr

/-- `semantics.CapabilityMapping`. -/
structure CapabilityMapping where
  mobility_target : Option String := none
  fwd_token : Option String := none
  bwd_token : Option String := none
  turn_token : Option String := none
  strafe_token : Option String := none
  grip_target : Option String := none
  grip_token : Option String := none
  estop_target : Option String := none
  estop_token : Option String := none
deriving Repr

/-- `taskspec.TaskSpec`.  `policy_params` is `dict[str, float]` in the source
and every writer keeps its values numeric, so it is typed `ℚ`; `safety` and
`policy_param_bounds` receive unvalidated JSON on load and stay loosely
typed. -/
structure TaskSpec where
  task_id : String
  instruction : String
  camera_roi : Rect
  home_roi : Rect
  safety : List (String × PyVal)
  policy_params : List (String × ℚ)
  policy_param_bounds : List (String × PyVal)
deriving Repr

/-- The `TaskSpec()` dataclass defaults. -/
def TaskSpec.default : TaskSpec where
  task_id := "default"
  instruction := ""
  camera_roi := ⟨0, 0, 1, 1⟩
  home_roi := ⟨3/10, 1/4, 2/5, 1/2⟩
  safety := [("max_step_ms", .vnum 800), ("max_episode_s", .vnum 30),
             ("stop_every_steps", .vnum 1), ("lost_visible_stop_s", .vnum 1)]
  policy_params := [("default_duration_ms", 350), ("default_speed", 1/2),
                    ("center_margin", 12/100), ("turn_duration_ms", 220),
                    ("strafe_duration_ms", 220)]
  policy_param_bounds := []

/-- One step of a plan: the tagged dicts `{"type": "STOP"}` /
`{"type": "RUN", ...}` the engine builds. -/
inductive PlanStep where
  | stop : PlanStep
  | run : String → String → List PyVal → Option ℚ → PlanStep
deriving Repr

/-- `shield.ShieldDecision`. -/
structure ShieldDecision where
  overridden : Bool
  reason : String
  plan : List PlanStep
deriving Repr

/-- `manifest.get_command_spec`: scan the manifest's nodes for one whose
name or id equals `target`, then scan its commands for the token
(case-insensitively); keeps searching later nodes when a matching node lacks
the token.  A node whose `commands` key is missing contributes no commands
(a non-list `commands` value would make Python's `for` raise and is outside
the model). -/
def get_command_spec (manifest : List (String × PyVal)) (target token : String) :
    Option PyVal :=
  match dget manifest "nodes" with
  | some (.vlist nodes) => go (token.toUpper) nodes
  | _ => none
where
  cmds : PyVal → List PyVal
    | .vdict kv =>
      match dget kv "commands" with
      | some (.vlist cs) => cs
      | _ => []
    | _ => []
  go (tokenU : String) : List PyVal → Option PyVal
    | [] => none
    | node :: rest =>
      match node with
      | .vdict kv =>
        let name := pyStrOr (dget kv "name") ""
        let node_id := pyStrOr (dget kv "node_id") ""
        if target == name || target == node_id then
          match (cmds node).find? (fun cmd =>
            match cmd with
            | .vdict ckv => (pyStrOr (dget ckv "token") "").toUpper == tokenU
            | _ => false) with
          | some cmd => some cmd
          | none => go tokenU rest
        else go tokenU rest
      | _ => go tokenU rest

/-- `plan_utils._as_float` (policy params are typed `ℚ` here, so the
bool/non-number guard of the source reduces to the default case). -/
def as_float (v : Option ℚ) (d : ℚ) : ℚ := v.getD d

/-- `plan_utils.choose_arg_values` applied to a single argument spec. -/
def choose_arg_one (pp : List (String × ℚ)) (direction_hint : Option String)
    (arg : PyVal) : PyVal :=
  match arg with
  | .vdict kv =>
    let name := (pyStrOr (dget kv "name") "").toLower
    let arg_type := (pyStrOr (dget kv "type") "").toLower
    let enum := match dget kv "enum" with
      | some (.vlist xs) => some xs
      | _ => none
    let min_v := dget kv "min"
    let max_v := dget kv "max"
    if arg_type == "float" || arg_type == "int" then
      if strContains name "speed" || strContains name "throttle" ||
          strContains name "power" then
        let speed0 := as_float ((pp.find? (fun p => p.1 == "default_speed")).map (·.2)) (1/2)
        let speed := if min_v.isSome && max_v.isSome then
            pclamp speed0 (pyFloat min_v 0) (pyFloat max_v 0)
          else speed0
        if arg_type == "int" then .vnum (pyTrunc speed) else .vnum speed
      else if strContains name "degree" || name == "deg" || name == "degrees" ||
          name == "angle" then
        let mag := as_float ((pp.find? (fun p => p.1 == "default_turn_degrees")).map (·.2)) 12
        let sign : ℚ := if direction_hint == some "left" || direction_hint == some "L" then -1
          else if direction_hint == some "right" || direction_hint == some "R" then 1
          else 1
        let value0 := mag * sign
        let value := if min_v.isSome && max_v.isSome then
            pclamp value0 (pyFloat min_v 0) (pyFloat max_v 0)
          else value0
        if arg_type == "int" then .vnum (pyTrunc value) else .vnum value
      else
        if min_v.isSome && max_v.isSome then
          let mid := (pyFloat min_v 0 + pyFloat max_v 0) / 2
          if arg_type == "int" then .vnum (pyTrunc mid) else .vnum mid
        else if arg_type == "int" then .vnum 0 else .vnum 0
    else if arg_type == "bool" then
      .vbool true
    else if arg_type == "string" then
      match enum with
      | some es =>
        if !es.isEmpty then
          if (direction_hint == some "L" || direction_hint == some "R") &&
              es.any (fun v => some (pyStrLoose v) == direction_hint) then
            .vstr (direction_hint.getD "")
          else if direction_hint == some "left" &&
              es.any (fun v => pyStrLoose v == "L") then
            .vstr "L"
          else if direction_hint == some "right" &&
              es.any (fun v => pyStrLoose v == "R") then
            .vstr "R"
          else .vstr (pyStrLoose (es.headD .vnone))
        else .vstr "default"
      | none => .vstr "default"
    else .vnum 0
  | _ => .vnum 0

/-- `plan_utils.choose_arg_values`. -/
def choose_arg_values (command_spec : PyVal) (pp : List (String × ℚ))
    (direction_hint : Option String) : List PyVal :=
  let args_spec := match command_spec with
    | .vdict kv =>
      match dget kv "args" with
      | some (.vlist xs) => xs
      | _ => []
    | _ => []
  args_spec.map (choose_arg_one pp direction_hint)

/-- `shield.home_ok`. -/
def home_ok (bbox : Option BBox) (spec : TaskSpec) : Bool :=
  match bbox with
  | none => false
  | some b => contains spec.home_roi b

/-- `float(spec.safety.get(key, default))`. -/
def safetyGet (spec : TaskSpec) (key : String) (d : ℚ) : ℚ :=
  match dget spec.safety key with
  | none => d
  | some v => pyFloat (some v) d

/-- `shield.maybe_override`. -/
def maybe_override (tracker : TrackerOutput) (spec : TaskSpec)
    (caps : CapabilityMapping) (system_manifest : List (String × PyVal)) :
    Option ShieldDecision :=
  let visible_min := safetyGet spec "visible_conf_min" (12/100)
  let margin_min := getD spec.policy_params "center_margin" (12/100)
  let max_step_ms := safetyGet spec "max_step_ms" 800
  match tracker.bbox with
  | none => some ⟨true, "not_visible", [.stop]⟩
  | some bbox =>
    if tracker.visibility_confidence < visible_min then
      some ⟨true, "not_visible", [.stop]⟩
    else if !(contains spec.camera_roi bbox) then
      some ⟨true, "outside_roi", [.stop]⟩
    else if tracker.edge_margin < margin_min then
      if !(strTruthy caps.mobility_target) then
        some ⟨true, "edge_no_mobility", [.stop]⟩
      else
        let mt := caps.mobility_target.getD ""
        let desired_x := spec.home_roi.centerX
        let cx := bbox.centerX
        let dir_lr := if cx > desired_x then "left" else "right"
        if strTruthy caps.strafe_token then
          let token := caps.strafe_token.getD ""
          let cmd := get_command_spec system_manifest mt token
          if !(cmd.map pyTruthy).getD false then
            some ⟨true, "edge_strafe_missing_spec", [.stop]⟩
          else
            let args := choose_arg_values (cmd.getD .vnone) spec.policy_params
              (some (if dir_lr == "left" then "L" else "R"))
            let duration := pclamp (getD spec.policy_params "strafe_duration_ms" 220)
              80 max_step_ms
            some ⟨true, "edge_strafe_" ++ dir_lr,
              [.run mt token args (some duration), .stop]⟩
        else if strTruthy caps.turn_token then
          let token := caps.turn_token.getD ""
          let cmd := get_command_spec system_manifest mt token
          if !(cmd.map pyTruthy).getD false then
            some ⟨true, "edge_turn_missing_spec", [.stop]⟩
          else
            let args := choose_arg_values (cmd.getD .vnone) spec.policy_params
              (some dir_lr)
            let duration := pclamp (getD spec.policy_params "turn_duration_ms" 220)
              80 max_step_ms
            some ⟨true, "edge_turn_" ++ dir_lr,
              [.run mt token args (some duration), .stop]⟩
        else
          some ⟨true, "edge_no_motion_tokens", [.stop]⟩
    else none

/-- Argument names the sanitizer treats as a speed/throttle/power value
(`policy._sanitize_args`). -/
def speedName (name : String) : Bool :=
  strContains name "speed" || strContains name "throttle" || strContains name "power"

/-- Argument names the sanitizer treats as a turn-degrees/angle value. -/
def degreeName (name : String) : Bool :=
  strContains name "degree" || name == "deg" || name == "degrees" || name == "angle"

/-- The numeric pipeline of `policy._sanitize_args` for one argument, before
the final `int(round(.))` conversion of int-typed arguments.  `float(raw)` of
a boolean is pre-empted (0.0), of a number is exact, and of anything that
raises falls to the `except` arm (0.0); numeric strings, which Python would
parse, are outside the model. -/
def sanitize_num (raw : PyVal) (name : String) (min_v max_v : Option PyVal)
    (default_speed default_turn_deg : ℚ) : ℚ :=
  let num0 : ℚ := match raw with
    | .vbool _ => 0
    | .vnum q => q
    | _ => 0
  let num1 := if speedName name then
      let a := if min_v.isSome then max num0 (pyFloat min_v 0) else num0
      min a default_speed
    else num0
  let num2 := if degreeName name then
      pclamp num1 (-(abs default_turn_deg)) (abs default_turn_deg)
    else num1
  let num3 := if min_v.isSome then max num2 (pyFloat min_v 0) else num2
  if max_v.isSome then min num3 (pyFloat max_v 0) else num3

/-- The body of `policy._sanitize_args` for one `(arg_spec, raw)` pair. -/
def sanitize_one (pp : List (String × ℚ)) (arg_spec raw : PyVal) : PyVal :=
  match arg_spec with
  | .vdict kv =>
    let arg_type := (pyStrOr (dget kv "type") "").toLower
    let name := (pyStrOr (dget kv "name") "").toLower
    let enum := match dget kv "enum" with
      | some (.vlist xs) => some xs
      | _ => none
    let min_v := dget kv "min"
    let max_v := dget kv "max"
    if arg_type == "float" || arg_type == "int" then
      let default_speed := getD pp "default_speed" (1/2)
      let default_turn_deg := getD pp "default_turn_degrees" 12
      let num := sanitize_num raw name min_v max_v default_speed default_turn_deg
      if arg_type == "int" then .vnum (pyRound num) else .vnum num
    else if arg_type == "bool" then
      match raw with
      | .vbool b => .vbool b
      | .vstr s =>
        if s.toLower == "true" || s.toLower == "1" then .vbool true
        else if s.toLower == "false" || s.toLower == "0" then .vbool false
        else .vbool false
      | _ => .vbool false
    else if arg_type == "string" then
      match enum with
      | some es =>
        if !es.isEmpty then
          let raw_s := pyStrLoose raw
          if es.any (fun v => pyStrLoose v == raw_s) then .vstr raw_s
          else .vstr (pyStrLoose (es.headD .vnone))
        else .vstr (pyStrLoose raw)
      | none => .vstr (pyStrLoose raw)
    else raw
  | _ => raw

/-- `policy._sanitize_args`: the loop runs over `spec_args` and breaks once
the provided `args` run out, i.e. over `spec_args.zip args`; surplus provided
args are dropped. -/
def sanitize_args (args spec_args : List PyVal) (pp : List (String × ℚ)) :
    List PyVal :=
  (spec_args.zip args).map (fun p => sanitize_one pp p.1 p.2)

/-- The per-step normalization inside `policy.plan_next_step_openai`
(the body of `for step in plan[:1]`): a non-dict or unknown-typed step is
skipped, `STOP` and `RUN` steps are rebuilt with coerced fields
(`isinstance(step.get("duration_ms"), (int, float))` accepts booleans). -/
def normalize_step (step : PyVal) : Option PlanStep :=
  match step with
  | .vdict kv =>
    let st := (pyStrOr (dget kv "type") "").toUpper
    if st == "STOP" then some .stop
    else if st == "RUN" then
      some (.run (pyStrOr (dget kv "target") "")
        ((pyStrOr (dget kv "token") "").toUpper)
        (match dget kv "args" with
         | some (.vlist a) => a
         | _ => [])
        (match dget kv "duration_ms" with
         | some (.vnum q) => some q
         | some (.vbool b) => some (if b then 1 else 0)
         | _ => none))
    else none
  | _ => none

/-- `policy.plan_next_step_openai`.  The external structured-output call is
modelled by `svc`: `Except.error` is the exception `responses_json_schema`
raises when the service is unreachable (`openai_client.call_responses_api`
lines 104-116) or returns non-JSON or non-object text (lines 154-159), and
`Except.ok out` is the parsed response object.  `hasKey` is the truth of
`openai_api_key()`.  The instruction, semantics, capability map and tracker
observation only shape the request payload and do not affect the returned
plan, so they are not parameters here. -/
def plan_next_step_openai (hasKey : Bool)
    (svc : Except String (List (String × PyVal)))
    (system_manifest : List (String × PyVal)) (spec : TaskSpec) :
    Except String (List PlanStep × String) :=
  if !hasKey then .ok ([.stop], "openai_disabled_missing_api_key")
  else
    match svc with
    | .error e => .error e
    | .ok out =>
      match dget out "plan", dget out "reason" with
      | some (.vlist plan), some (.vstr reason) =>
        let normalized := (plan.take 1).filterMap normalize_step
        match normalized with
        | [] => .ok ([.stop], "openai_empty_plan")
        | .stop :: _ => .ok ([.stop], reason)
        | .run target token args dur :: _ =>
          let cmd := get_command_spec system_manifest target token
          let args2 := match cmd with
            | some c =>
              if pyTruthy c then
                match c with
                | .vdict ckv =>
                  match dget ckv "args" with
                  | some (.vlist sargs) => sanitize_args args sargs spec.policy_params
                  | _ => args
                | _ => args
              else args
            | none => args
          .ok ([.run target token args2 dur, .stop], reason)
      | _, _ => .ok ([.stop], "openai_invalid_output")

/-- `policy.plan_next_step_fallback`. -/
def plan_next_step_fallback (instruction : String) : List PlanStep × String :=
  if strContains instruction.toLower "stop" then ([.stop], "fallback_stop")
  else ([.stop], "fallback_noop")

/-- The shape check `isinstance(plan, list) and isinstance(reason, str)` on a
parsed planner-service response (`policy.plan_next_step_openai` line 210). -/
def planWellTyped (out : List (String × PyVal)) : Bool :=
  match dget out "plan", dget out "reason" with
  | some (.vlist _), some (.vstr _) => true
  | _, _ => false

/-- The four-number extraction at the head of `taskspec._as_norm_rect`: the
value must be a dict whose `x`, `y`, `w`, `h` are all Python numbers
(`isinstance(raw, (int, float))`, which admits booleans). -/
def rectNums (value : PyVal) : Option (ℚ × ℚ × ℚ × ℚ) :=
  match value with
  | .vdict kv =>
    if pyIsNum (dget kv "x") && pyIsNum (dget kv "y") &&
        pyIsNum (dget kv "w") && pyIsNum (dget kv "h") then
      some (pyFloat (dget kv "x") 0, pyFloat (dget kv "y") 0,
            pyFloat (dget kv "w") 0, pyFloat (dget kv "h") 0)
    else none
  | _ => none

/-- `taskspec._as_norm_rect`. -/
def as_norm_rect (value : PyVal) (default : Rect) : Rect :=
  match rectNums value with
  | none => default
  | some (x0, y0, w0, h0) =>
    let x := pclamp x0 0 1
    let y := pclamp y0 0 1
    let w := pclamp w0 0 (1 - x)
    let h := pclamp h0 0 (1 - y)
    if w ≤ 0 ∨ h ≤ 0 then default else ⟨x, y, w, h⟩

/-- The clamp applied to one accepted patch value in `TaskSpec.apply_patch`:
declared bounds are used only when the bounds entry is a dict whose `min` and
`max` are both numbers (booleans included, Python `isinstance`), else the
generic safety range. -/
def patchClamp (bounds : List (String × PyVal)) (k : String) (q : ℚ) : ℚ :=
  match dget bounds k with
  | some (.vdict bd) =>
    if pyIsNum (dget bd "min") && pyIsNum (dget bd "max") then
      pclamp q (pyFloat (dget bd "min") 0) (pyFloat (dget bd "max") 0)
    else pclamp q (-1000000) 1000000
  | _ => pclamp q (-1000000) 1000000

/-- The per-entry loop of `TaskSpec.apply_patch` (dict keys are strings in
every patch the engine builds, so `isinstance(k, str)` is inherent to the
model; `not k.strip()` skips blank keys; only non-boolean numbers are
accepted). -/
def apply_patch_entries (bounds : List (String × PyVal))
    (params : List (String × ℚ)) :
    List (String × PyVal) → List (String × ℚ) × List String
  | [] => (params, [])
  | (k, v) :: rest =>
    if (pyStrip k).isEmpty then apply_patch_entries bounds params rest
    else
      match v with
      | .vnum q =>
        let value := patchClamp bounds k q
        let r := apply_patch_entries bounds (aset params k value) rest
        (r.1, ("policy_params." ++ k) :: r.2)
      | _ => apply_patch_entries bounds params rest

/-- `TaskSpec.apply_patch`: returns the updated spec and the applied keys. -/
def apply_patch (spec : TaskSpec) (patch : PyVal) : TaskSpec × List String :=
  match patch with
  | .vdict kv =>
    match dget kv "policy_params" with
    | some (.vdict pp) =>
      if pp.length > 32 then (spec, [])
      else
        let r := apply_patch_entries spec.policy_param_bounds spec.policy_params pp
        ({spec with policy_params := r.1}, r.2)
    | _ => (spec, [])
  | _ => (spec, [])

/-- `taskspec.load_taskspec` after the file has been read and JSON-parsed
(the `open`/`json.load` step is I/O; a non-object document raises).  The
`path is None` early return is the dataclass default and is covered by
`TaskSpec.default`. -/
def load_taskspec_parsed (raw : PyVal) (instruction_override : Option String) :
    Except String TaskSpec :=
  match raw with
  | .vdict kv =>
    let d := TaskSpec.default
    let task_id := pyStrOr (dget kv "task_id") d.task_id
    let instruction := instruction_override.getD (pyStrOr (dget kv "instruction") "")
    let camera_roi := as_norm_rect ((dget kv "camera_roi").getD .vnone) d.camera_roi
    let home_roi := as_norm_rect ((dget kv "home_roi").getD .vnone) d.home_roi
    let safety := match dget kv "safety" with
      | some (.vdict s) => s.foldl (fun acc p => dset acc p.1 p.2) d.safety
      | _ => d.safety
    let policy_params := match dget kv "policy_params" with
      | some (.vdict s) =>
        s.foldl (fun acc p =>
          match p.2 with
          | .vnum q => aset acc p.1 q
          | _ => acc) d.policy_params
      | _ => d.policy_params
    let bounds := match dget kv "policy_param_bounds" with
      | some (.vdict b) => b
      | _ => d.policy_param_bounds
    .ok ⟨task_id, instruction, camera_roi, home_roi, safety, policy_params, bounds⟩
  | _ => .error "taskspec must be a JSON object"

/-- `b64[:2048].encode("ascii", errors="ignore")`: the first 2048 characters
with non-ASCII code points dropped. -/
def asciiHead (b : String) : String :=
  String.mk ((b.toList.take 2048).filter (fun c => c.toNat < 128))

/-- The data hashed by `judge._hash_key`: the stripped instruction followed,
per frame, by the ASCII-filtered 2048-character head and the character
length.  The SHA-256 digest is modelled by this data itself (assumed
collision-free); distinct values here produce distinct byte streams in the
source's hash input whenever the instruction is fixed. -/
structure JudgeKey where
  instr : String
  frames : List (String × Nat)
deriving Repr, DecidableEq

/-- `judge._hash_key`. -/
def hash_key (instruction : String) (frames : List String) : JudgeKey :=
  ⟨pyStrip instruction, frames.map (fun b => (asciiHead b, b.length))⟩

/-- `judge.JudgeResult`. -/
structure JudgeResult where
  verdict : String
  score : ℚ
  confidence : ℚ
  failure_modes : List String
  what_went_wrong : String
  fix_proposal : List (String × PyVal)
  raw : Option (List (String × PyVal))
deriving Repr

/-- The cache-hit reconstruction of `judge.judge_episode` (source lines
83-92), after the guard has established that the entry is a dict whose
`verdict` is the string `v`. -/
def cacheReconstruct (ckv : List (String × PyVal)) (v : String) : JudgeResult where
  verdict := v
  score := pyFloat (dget ckv "score") 0
  confidence := pyFloat (dget ckv "confidence") 0
  failure_modes := match dget ckv "failure_modes" with
    | some (.vlist xs) => xs.filterMap (fun x =>
        match x with
        | .vstr s => some s
        | _ => none)
    | _ => []
  what_went_wrong := pyStrOr (dget ckv "what_went_wrong") ""
  fix_proposal := match dget ckv "fix_proposal" with
    | some (.vdict f) => f
    | _ => []
  raw := match dget ckv "raw" with
    | some (.vdict r) => some r
    | _ => none

/-- The `JudgeResult` built from a fresh service response (source lines
141-156). -/
def judgeBuild (out raw : List (String × PyVal)) : JudgeResult where
  verdict := pyStrOr (dget out "verdict") "uncertain"
  score := max 0 (min 1 (pyFloat (dget out "score") 0))
  confidence := max 0 (min 1 (pyFloat (dget out "confidence") 0))
  failure_modes := match dget out "failure_modes" with
    | some (.vlist xs) => xs.filterMap (fun x =>
        match x with
        | .vstr s => some s
        | _ => none)
    | _ => []
  what_went_wrong := pyStrOr (dget out "what_went_wrong") ""
  fix_proposal := match dget out "fix_proposal" with
    | some (.vdict f) => f
    | _ => []
  raw := some raw

/-- The fields of the cache record written for a fresh result (source lines
158-167); the stored value is the dict over these fields. -/
def cacheEntryFields (ts : String) (r : JudgeResult) (raw : List (String × PyVal)) :
    List (String × PyVal) :=
  [("ts", .vstr ts), ("verdict", .vstr r.verdict), ("score", .vnum r.score),
   ("confidence", .vnum r.confidence),
   ("failure_modes", .vlist (r.failure_modes.map .vstr)),
   ("what_went_wrong", .vstr r.what_went_wrong),
   ("fix_proposal", .vdict r.fix_proposal), ("raw", .vdict raw)]

/-- The cache-read guard of `judge_episode` (source lines 82-92): a usable
entry must be a dict whose `verdict` is a string. -/
def cacheHit (cache : List (JudgeKey × PyVal)) (key : JudgeKey) :
    Option JudgeResult :=
  match cache.find? (fun p => p.1 == key) with
  | some (_, .vdict ckv) =>
    match dget ckv "verdict" with
    | some (.vstr v) => some (cacheReconstruct ckv v)
    | _ => none
  | _ => none

/-- `judge.judge_episode`.  `hasKey` is `openai_api_key()`; `svc` is the
outcome of `responses_json_schema` (`Except.error` = the exception raised on
an unreachable service or malformed text, `Except.ok (out, raw)` = the parsed
response and the raw payload); `cache` is the `entries` table of the on-disk
store, whose dict shape `_load_cache` guarantees; `ts` is `now_iso()`.  The
executed summary and policy params only shape the request payload.  Returns
the result, the updated cache, and whether the external service was
invoked. -/
def judge_episode (hasKey : Bool)
    (svc : Except String (List (String × PyVal) × List (String × PyVal)))
    (instruction : String) (frames_jpeg_b64 : List String)
    (cache : List (JudgeKey × PyVal)) (ts : String) :
    Except String (JudgeResult × List (JudgeKey × PyVal) × Bool) :=
  if !hasKey then
    .ok (⟨"uncertain", 0, 0, ["missing_api_key"],
          "OPENAI_API_KEY missing; judge disabled.", [], none⟩, cache, false)
  else
    let frames := (frames_jpeg_b64.filter (fun b => !(pyStrip b).isEmpty)).take 8
    let key := hash_key instruction frames
    match cacheHit cache key with
    | some r => .ok (r, cache, false)
    | none =>
      match svc with
      | .error e => .error e
      | .ok (out, raw) =>
        let result := judgeBuild out raw
        .ok (result, aset cache key (.vdict (cacheEntryFields ts result raw)), true)

/-- Lookup in a typed association map (`d.get(k)`). -/
def aget {κ α : Type} [BEq κ] (m : List (κ × α)) (k : κ) : Option α :=
  (m.find? (fun p => p.1 == k)).map (·.2)

/-- The acceptance test `apply_patch` applies to one `policy_params` entry:
a key that is non-blank after stripping, and a non-boolean numeric value. -/
def patchEntryOk (kv : String × PyVal) : Bool :=
  !(pyStrip kv.1).isEmpty &&
  (match kv.2 with
   | .vnum _ => true
   | _ => false)

/-- Per-frame agreement as claim C7 states it, refined by whitespace status:
same first-2048-character ASCII-encoded bytes, same total length, and the
same answer to the `b64.strip()` emptiness test that `judge_episode` uses to
drop blank frames. -/
def frameAgree (a b : String) : Prop :=
  asciiHead a = asciiHead b ∧ a.length = b.length ∧
  ((pyStrip a).isEmpty ↔ (pyStrip b).isEmpty)

/-- Well-formedness of a normalized rectangle, as the specification states
it: coordinates in `[0, 1]`, strictly positive extent, contained in the unit
square. -/
def GoodRect (r : Rect) : Prop :=
  0 ≤ r.x ∧ r.x ≤ 1 ∧ 0 ≤ r.y ∧ r.y ≤ 1 ∧ 0 < r.w ∧ 0 < r.h ∧
  r.x + r.w ≤ 1 ∧ r.y + r.h ≤ 1

instance (r : Rect) : Decidable (GoodRect r) := by
  unfold GoodRect; infer_instance

/-! ## Claims -/

theorem forall₂_filter_keep {l1 l2 : List String}
    (h : List.Forall₂ frameAgree l1 l2) :
    List.Forall₂ frameAgree (l1.filter (fun b => !(pyStrip b).isEmpty))
      (l2.filter (fun b => !(pyStrip b).isEmpty)) := by
  induction h with
  | nil => simp
  | @cons a b t1 t2 ha ht ih =>
    cases hk : (pyStrip a).isEmpty with
    | true =>
      have hk2 : (pyStrip b).isEmpty = true := ha.2.2.mp hk
      simpa [List.filter_cons, hk, hk2] using ih
    | false =>
      have hk2 : (pyStrip b).isEmpty = false := by
        cases hb : (pyStrip b).isEmpty
        · rfl
        · have hcontra := ha.2.2.mpr hb
          rw [hcontra] at hk
          exact hk
      simpa [List.filter_cons, hk, hk2] using List.Forall₂.cons ha ih

theorem forall₂_key_map {l1 l2 : List String}
    (h : List.Forall₂ frameAgree l1 l2) :
    l1.map (fun b => (asciiHead b, b.length)) =
      l2.map (fun b => (asciiHead b, b.length)) := by
  induction h with
  | nil => rfl
  | @cons a b t1 t2 ha ht ih =>
    simp only [List.map_cons, ih, List.cons.injEq, and_true]
    exact Prod.ext ha.1 ha.2.1

theorem find?_map_replace {κ α : Type} [BEq κ] [LawfulBEq κ]
    (m : List (κ × α)) (k : κ) (v : α)
    (hm : m.any (fun p => p.1 == k) = true) :
    (m.map (fun p => if p.1 == k then (k, v) else p)).find?
      (fun p => p.1 == k) = some (k, v) := by
  induction m with
  | nil => simp at hm
  | cons hd tl ih =>
    cases hk : hd.1 == k with
    | true => simp [List.find?_cons, hk]
    | false =>
      simp only [List.any_cons, hk, Bool.false_or] at hm
      simp only [List.map_cons, hk, Bool.false_eq_true, if_false,
        List.find?_cons, hk]
      exact ih hm

theorem find?_append_self {κ α : Type} [BEq κ] [LawfulBEq κ]
    (m : List (κ × α)) (k : κ) (v : α)
    (hm : m.any (fun p => p.1 == k) = false) :
    (m ++ [(k, v)]).find? (fun p => p.1 == k) = some (k, v) := by
  induction m with
  | nil => simp [List.find?]
  | cons hd tl ih =>
    cases hk : hd.1 == k with
    | true =>
      simp only [List.any_cons, hk, Bool.true_or] at hm
      exact Bool.noConfusion hm
    | false =>
      simp only [List.any_cons, hk, Bool.false_or] at hm
      simp only [List.cons_append, List.find?_cons, hk]
      exact ih hm

theorem aset_find {κ α : Type} [BEq κ] [LawfulBEq κ] (m : List (κ × α))
    (k : κ) (v : α) :
    (aset m k v).find? (fun p => p.1 == k) = some (k, v) := by
  unfold aset
  split
  · rename_i hany
    exact find?_map_replace m k v hany
  · rename_i hany
    exact find?_append_self m k v (Bool.eq_false_iff.mpr hany)

theorem filterMap_vstr_map (l : List String) :
    (l.map PyVal.vstr).filterMap (fun x =>
      match x with
      | PyVal.vstr s => some s
      | _ => none) = l := by
  induction l with
  | nil => rfl
  | cons a t ih => simp [ih]

theorem pyStrOr_vstr (s : String) : pyStrOr (some (.vstr s)) "" = s := by
  cases h : s.isEmpty with
  | true =>
    rw [(String.isEmpty_iff s).mp h]
    rfl
  | false =>
    unfold pyStrOr
    simp [h]

/-- Writing a fresh result to the cache and reading it back through the
cache-hit guard reproduces the result exactly. -/
theorem cacheEntry_roundtrip (ts : String) (r : JudgeResult)
    (raw : List (String × PyVal)) (hraw : r.raw = some raw) :
    cacheReconstruct (cacheEntryFields ts r raw) r.verdict = r := by
  cases r with
  | mk v sc cf fm ww fx rw0 =>
    dsimp only at hraw
    subst hraw
    unfold cacheReconstruct cacheEntryFields
    simp only [JudgeResult.mk.injEq, true_and, and_true]
    exact ⟨rfl, rfl, filterMap_vstr_map fm, pyStrOr_vstr ww, rfl, rfl⟩

/-- Claim C6 counterexample: with API credentials present, an unreachable
judging service (a raised exception from `responses_json_schema`) propagates
out of `judge_episode` — the claim's "whenever the judging service is
unreachable ... it does not raise" fails; only the missing-credentials case
degrades to `uncertain`. -/
theorem judge_raises_with_key_cex :
    judge_episode true (.error "unreachable") "go" [] [] "t0" =
      .error "unreachable" := rfl

/-- Claim C6 (amended): when API credentials are missing, `judge_episode`
returns verdict `uncertain` with the explicit `missing_api_key` failure mode
and an empty fix proposal, touching neither the cache nor the service and
never raising; but when credentials are present, the cache misses, and the
service is unreachable, `judge_episode` propagates the exception instead of
returning a verdict. -/
theorem judge_degrades_only_without_key
    (svc : Except String (List (String × PyVal) × List (String × PyVal)))
    (instr : String) (frames : List String) (cache : List (JudgeKey × PyVal))
    (ts e : String)
    (hmiss : cacheHit cache
      (hash_key instr ((frames.filter (fun b => !(pyStrip b).isEmpty)).take 8)) =
      none) :
    judge_episode false svc instr frames cache ts =
      .ok (⟨"uncertain", 0, 0, ["missing_api_key"],
            "OPENAI_API_KEY missing; judge disabled.", [], none⟩, cache, false) ∧
    judge_episode true (.error e) instr frames cache ts = .error e := by
  refine ⟨rfl, ?_⟩
  unfold judge_episode
  rw [if_neg (by simp)]
  dsimp only
  rw [hmiss]

/-- Witness for C6 at a concrete input. -/
theorem judge_degrades_only_without_key_witness :
    judge_episode false (.error "net down") "go" [] [] "t0" =
      .ok (⟨"uncertain", 0, 0, ["missing_api_key"],
            "OPENAI_API_KEY missing; judge disabled.", [], none⟩, [], false) ∧
    judge_episode true (.error "net down") "go" [] [] "t0" =
      .error "net down" :=
  judge_degrades_only_without_key (.error "net down") "go" [] [] "t0"
    "net down" rfl

/-- Claim C7 counterexample: the two frames U+00A0 (a whitespace-only string)
and U+00E9 agree on their first 2048 ASCII-encoded bytes (both encode to the
empty byte string) and on their total length (1), yet `judge_episode` drops
the whitespace-only frame before hashing, so the two calls use different
cache keys: the second call misses the cache, invokes the service again
(third component `true`), and returns the fresh service verdict rather than
the first call's cached result. -/
theorem judge_cache_prefix_cex :
    asciiHead " " = asciiHead "é" ∧
    String.length " " = String.length "é" ∧
    judge_episode true (.ok ([("verdict", .vstr "success")], [])) "go"
      [" "] [] "t1" =
      .ok (⟨"success", 0, 0, [], "", [], some []⟩,
        [(⟨"go", []⟩, .vdict [("ts", .vstr "t1"), ("verdict", .vstr "success"),
          ("score", .vnum 0), ("confidence", .vnum 0),
          ("failure_modes", .vlist []), ("what_went_wrong", .vstr ""),
          ("fix_proposal", .vdict []), ("raw", .vdict [])])], true) ∧
    judge_episode true (.ok ([("verdict", .vstr "failure")], [])) "go" ["é"]
      [(⟨"go", []⟩, .vdict [("ts", .vstr "t1"), ("verdict", .vstr "success"),
        ("score", .vnum 0), ("confidence", .vnum 0),
        ("failure_modes", .vlist []), ("what_went_wrong", .vstr ""),
        ("fix_proposal", .vdict []), ("raw", .vdict [])])] "t2" =
      .ok (⟨"failure", 0, 0, [], "", [], some []⟩,
        [(⟨"go", []⟩, .vdict [("ts", .vstr "t1"), ("verdict", .vstr "success"),
          ("score", .vnum 0), ("confidence", .vnum 0),
          ("failure_modes", .vlist []), ("what_went_wrong", .vstr ""),
          ("fix_proposal", .vdict []), ("raw", .vdict [])]),
         (⟨"go", [("", 1)]⟩, .vdict [("ts", .vstr "t2"),
          ("verdict", .vstr "failure"), ("score", .vnum 0),
          ("confidence", .vnum 0), ("failure_modes", .vlist []),
          ("what_went_wrong", .vstr ""), ("fix_proposal", .vdict []),
          ("raw", .vdict [])])], true) := by
  refine ⟨rfl, rfl, ?_, ?_⟩
  · with_unfolding_all rfl
  · with_unfolding_all rfl

/-- Claim C7 (amended): for two `judge_episode` calls with identical
instruction and frame lists agreeing per-frame on the first 2048
ASCII-encoded characters, the total length, and on whether the frame is
whitespace-only (the `b64.strip()` filter), the second call — run on the
cache state the first call produced — never invokes the external service and
returns the first call's result and cache unchanged. -/
theorem judge_cache_second_call (hasKey : Bool)
    (svc1 svc2 : Except String (List (String × PyVal) × List (String × PyVal)))
    (instr : String) (fs1 fs2 : List String) (cache : List (JudgeKey × PyVal))
    (ts1 ts2 : String) (r1 : JudgeResult) (c1 : List (JudgeKey × PyVal))
    (b1 : Bool)
    (hagree : List.Forall₂ frameAgree fs1 fs2)
    (h1 : judge_episode hasKey svc1 instr fs1 cache ts1 = .ok (r1, c1, b1)) :
    judge_episode hasKey svc2 instr fs2 c1 ts2 = .ok (r1, c1, false) := by
  cases hasKey with
  | false =>
    unfold judge_episode at h1 ⊢
    simp only [Bool.not_false, if_true, Except.ok.injEq, Prod.mk.injEq] at h1 ⊢
    exact ⟨h1.1, trivial⟩
  | true =>
    have hkey : hash_key instr
        ((fs2.filter (fun b => !(pyStrip b).isEmpty)).take 8) =
        hash_key instr ((fs1.filter (fun b => !(pyStrip b).isEmpty)).take 8) := by
      unfold hash_key
      exact congrArg _
        (forall₂_key_map (List.forall₂_take 8 (forall₂_filter_keep hagree))).symm
    unfold judge_episode at h1 ⊢
    rw [if_neg (by simp)] at h1 ⊢
    dsimp only at h1 ⊢
    rw [hkey]
    cases hhit : cacheHit cache
        (hash_key instr ((fs1.filter (fun b => !(pyStrip b).isEmpty)).take 8)) with
    | some r =>
      rw [hhit] at h1
      dsimp only at h1
      simp only [Except.ok.injEq, Prod.mk.injEq] at h1
      obtain ⟨hr, hc, _⟩ := h1
      subst hr
      subst hc
      rw [hhit]
    | none =>
      rw [hhit] at h1
      dsimp only at h1
      cases svc1 with
      | error e => exact absurd h1 (by simp)
      | ok pr =>
        obtain ⟨out, raw⟩ := pr
        dsimp only at h1
        simp only [Except.ok.injEq, Prod.mk.injEq] at h1
        obtain ⟨hr, hc, _⟩ := h1
        subst hr
        subst hc
        have hhit2 : cacheHit
            (aset cache
              (hash_key instr ((fs1.filter (fun b => !(pyStrip b).isEmpty)).take 8))
              (.vdict (cacheEntryFields ts1 (judgeBuild out raw) raw)))
            (hash_key instr ((fs1.filter (fun b => !(pyStrip b).isEmpty)).take 8)) =
            some (judgeBuild out raw) := by
          unfold cacheHit
          rw [aset_find]
          have hv : dget (cacheEntryFields ts1 (judgeBuild out raw) raw)
              "verdict" = some (.vstr (judgeBuild out raw).verdict) := rfl
          dsimp only
          rw [hv]
          exact congrArg some (cacheEntry_roundtrip ts1 (judgeBuild out raw) raw rfl)
        rw [hhit2]

/-- Witness for C7 at a concrete input (identical single-frame lists). -/
theorem judge_cache_second_call_witness :
    judge_episode true (.error "down") "go" ["ab"]
      [(⟨"go", [("ab", 2)]⟩, .vdict [("ts", .vstr "t1"),
        ("verdict", .vstr "success"), ("score", .vnum 0),
        ("confidence", .vnum 0), ("failure_modes", .vlist []),
        ("what_went_wrong", .vstr ""), ("fix_proposal", .vdict []),
        ("raw", .vdict [])])] "t2" =
      .ok (⟨"success", 0, 0, [], "", [], some []⟩,
        [(⟨"go", [("ab", 2)]⟩, .vdict [("ts", .vstr "t1"),
          ("verdict", .vstr "success"), ("score", .vnum 0),
          ("confidence", .vnum 0), ("failure_modes", .vlist []),
          ("what_went_wrong", .vstr ""), ("fix_proposal", .vdict []),
          ("raw", .vdict [])])], false) :=
  judge_cache_second_call true (.ok ([("verdict", .vstr "success")], []))
    (.error "down") "go" ["ab"] ["ab"] [] "t1" "t2"
    ⟨"success", 0, 0, [], "", [], some []⟩ _ true
    (List.Forall₂.cons ⟨rfl, rfl, Iff.rfl⟩ List.Forall₂.nil)
    (by with_unfolding_all rfl)

theorem find?_map_replace_ne {κ α : Type} [BEq κ] [LawfulBEq κ]
    (m : List (κ × α)) (k k2 : κ) (v : α) (h : (k == k2) = false) :
    (m.map (fun p => if p.1 == k then (k, v) else p)).find?
      (fun p => p.1 == k2) = m.find? (fun p => p.1 == k2) := by
  induction m with
  | nil => rfl
  | cons hd tl ih =>
    cases hk : hd.1 == k with
    | true =>
      have h2 : (hd.1 == k2) = false := by
        rw [eq_of_beq hk]; exact h
      simp only [List.map_cons, hk, if_true, List.find?_cons, h, h2]
      exact ih
    | false =>
      simp only [List.map_cons, hk, Bool.false_eq_true, if_false,
        List.find?_cons]
      cases hk2 : hd.1 == k2 with
      | true => rfl
      | false => exact ih

theorem find?_append_ne {κ α : Type} [BEq κ]
    (m : List (κ × α)) (k k2 : κ) (v : α) (h : (k == k2) = false) :
    (m ++ [(k, v)]).find? (fun p => p.1 == k2) =
      m.find? (fun p => p.1 == k2) := by
  induction m with
  | nil => simp [List.find?, h]
  | cons hd tl ih =>
    simp only [List.cons_append, List.find?_cons]
    cases hk2 : hd.1 == k2 with
    | true => rfl
    | false => exact ih

theorem aget_aset_self {κ α : Type} [BEq κ] [LawfulBEq κ] (m : List (κ × α))
    (k : κ) (v : α) : aget (aset m k v) k = some v := by
  unfold aget
  rw [aset_find]
  rfl

theorem aget_aset_ne {κ α : Type} [BEq κ] [LawfulBEq κ] (m : List (κ × α))
    (k k2 : κ) (v : α) (h : (k == k2) = false) :
    aget (aset m k v) k2 = aget m k2 := by
  unfold aget aset
  split
  · rw [find?_map_replace_ne m k k2 v h]
  · rw [find?_append_ne m k k2 v h]

theorem apply_entries_skip (bounds : List (String × PyVal))
    (params : List (String × ℚ)) (k0 : String) (v0 : PyVal)
    (rest : List (String × PyVal)) (hok : patchEntryOk (k0, v0) = false) :
    apply_patch_entries bounds params ((k0, v0) :: rest) =
      apply_patch_entries bounds params rest := by
  conv_lhs => unfold apply_patch_entries
  cases hk : (pyStrip k0).isEmpty with
  | true => simp [hk]
  | false =>
    unfold patchEntryOk at hok
    simp only [hk, Bool.not_false, Bool.true_and] at hok
    cases v0 <;> simp_all

theorem apply_entries_app (bounds : List (String × PyVal))
    (params : List (String × ℚ)) (k0 : String) (q : ℚ)
    (rest : List (String × PyVal)) (hok : patchEntryOk (k0, .vnum q) = true) :
    apply_patch_entries bounds params ((k0, .vnum q) :: rest) =
      ((apply_patch_entries bounds (aset params k0 (patchClamp bounds k0 q)) rest).1,
       ("policy_params." ++ k0) ::
         (apply_patch_entries bounds
           (aset params k0 (patchClamp bounds k0 q)) rest).2) := by
  unfold patchEntryOk at hok
  have hk : (pyStrip k0).isEmpty = false := by
    cases h : (pyStrip k0).isEmpty
    · rfl
    · rw [h] at hok; simp at hok
  conv_lhs => unfold apply_patch_entries
  simp [hk]

theorem apply_entries_applied (bounds : List (String × PyVal))
    (es : List (String × PyVal)) :
    ∀ params, (apply_patch_entries bounds params es).2 =
      (es.filter patchEntryOk).map (fun kv => "policy_params." ++ kv.1) := by
  induction es with
  | nil => intro params; rfl
  | cons e rest ih =>
    intro params
    obtain ⟨k0, v0⟩ := e
    cases hok : patchEntryOk (k0, v0) with
    | false =>
      rw [apply_entries_skip _ _ _ _ _ hok, ih params]
      simp [List.filter_cons, hok]
    | true =>
      have hv : ∃ q, v0 = .vnum q := by
        unfold patchEntryOk at hok
        cases v0 <;> simp_all
      obtain ⟨q, rfl⟩ := hv
      rw [apply_entries_app _ _ _ _ _ hok]
      simp only [List.filter_cons, hok, if_true, List.map_cons]
      rw [ih]

theorem apply_entries_untouched (bounds : List (String × PyVal))
    (k : String) (es : List (String × PyVal)) :
    ∀ params, (∀ v, (k, v) ∈ es → patchEntryOk (k, v) = false) →
      aget (apply_patch_entries bounds params es).1 k = aget params k := by
  induction es with
  | nil => intro params _; rfl
  | cons e rest ih =>
    intro params h
    obtain ⟨k0, v0⟩ := e
    cases hok : patchEntryOk (k0, v0) with
    | false =>
      rw [apply_entries_skip _ _ _ _ _ hok]
      exact ih params (fun v hv => h v (List.mem_cons_of_mem _ hv))
    | true =>
      have hv : ∃ q, v0 = .vnum q := by
        unfold patchEntryOk at hok
        cases v0 <;> simp_all
      obtain ⟨q, rfl⟩ := hv
      rw [apply_entries_app _ _ _ _ _ hok]
      dsimp only
      have hkk : (k0 == k) = false := by
        cases hb : k0 == k
        · rfl
        · have hke : k0 = k := eq_of_beq hb
          subst hke
          have hfalse := h (.vnum q) (List.mem_cons_self _ _)
          rw [hfalse] at hok
          exact hok.symm
      rw [ih _ (fun v hv => h v (List.mem_cons_of_mem _ hv)),
        aget_aset_ne _ _ _ _ hkk]

theorem apply_entries_value (bounds : List (String × PyVal))
    (k : String) (q : ℚ) (es : List (String × PyVal)) :
    ∀ params, (es.map Prod.fst).Nodup → (k, PyVal.vnum q) ∈ es →
      patchEntryOk (k, .vnum q) = true →
      aget (apply_patch_entries bounds params es).1 k =
        some (patchClamp bounds k q) := by
  induction es with
  | nil =>
    intro params _ hmem _
    exact absurd hmem (List.not_mem_nil _)
  | cons e rest ih =>
    intro params hnd hmem hok
    obtain ⟨k0, v0⟩ := e
    rw [List.map_cons, List.nodup_cons] at hnd
    rcases List.mem_cons.mp hmem with heq | hmem2
    · injection heq with hk0 hv0
      subst hk0
      subst hv0
      rw [apply_entries_app _ _ _ _ _ hok]
      dsimp only
      have hnone : ∀ v, (k, v) ∈ rest → patchEntryOk (k, v) = false := by
        intro v hv
        exact absurd (List.mem_map_of_mem Prod.fst hv) hnd.1
      rw [apply_entries_untouched _ _ _ _ hnone, aget_aset_self]
    · have hk0 : (k0 == k) = false := by
        cases hb : k0 == k
        · rfl
        · have hke : k0 = k := eq_of_beq hb
          subst hke
          exact absurd (List.mem_map_of_mem Prod.fst hmem2) hnd.1
      cases hok0 : patchEntryOk (k0, v0) with
      | false =>
        rw [apply_entries_skip _ _ _ _ _ hok0]
        exact ih params hnd.2 hmem2 hok
      | true =>
        have hv : ∃ q0, v0 = .vnum q0 := by
          unfold patchEntryOk at hok0
          cases v0 <;> simp_all
        obtain ⟨q0, rfl⟩ := hv
        rw [apply_entries_app _ _ _ _ _ hok0]
        dsimp only
        exact ih _ hnd.2 hmem2 hok

/-- Claim C5 counterexample: the key `" "` (a single space) is a non-empty
string carrying a numeric value, so the claim says it is applied; but
`apply_patch` skips it (`not k.strip()`), applying nothing. -/
theorem apply_patch_blank_key_cex :
    apply_patch TaskSpec.default
      (.vdict [("policy_params", .vdict [(" ", .vnum 1)])]) =
      (TaskSpec.default, []) ∧ (" " : String) ≠ "" := by
  constructor
  · with_unfolding_all rfl
  · decide

/-- Claim C5 (amended): a patch whose `policy_params` dict carries more than
32 keys is rejected whole (nothing mutated, empty applied list); otherwise
exactly the entries with a non-blank (non-whitespace-only) string key and a
non-boolean numeric value are applied, the returned list names exactly those
keys in order, every other entry leaves its parameter untouched, and each
applied value is clamped to the parameter's declared min/max bounds when both
are present, else to the generic safety range. -/
theorem apply_patch_characterization (spec : TaskSpec)
    (patchkv pp : List (String × PyVal)) (k : String) (q : ℚ)
    (hpp : dget patchkv "policy_params" = some (.vdict pp)) :
    (pp.length > 32 → apply_patch spec (.vdict patchkv) = (spec, [])) ∧
    (pp.length ≤ 32 →
      (apply_patch spec (.vdict patchkv)).2 =
        (pp.filter patchEntryOk).map (fun kv => "policy_params." ++ kv.1)) ∧
    (pp.length ≤ 32 → (∀ v, (k, v) ∈ pp → patchEntryOk (k, v) = false) →
      aget (apply_patch spec (.vdict patchkv)).1.policy_params k =
        aget spec.policy_params k) ∧
    (pp.length ≤ 32 → (pp.map Prod.fst).Nodup → (k, .vnum q) ∈ pp →
      patchEntryOk (k, .vnum q) = true →
      aget (apply_patch spec (.vdict patchkv)).1.policy_params k =
        some (patchClamp spec.policy_param_bounds k q)) := by
  have e1 : apply_patch spec (.vdict patchkv) =
      (if pp.length > 32 then (spec, [])
       else ({spec with policy_params :=
               (apply_patch_entries spec.policy_param_bounds
                 spec.policy_params pp).1},
             (apply_patch_entries spec.policy_param_bounds
               spec.policy_params pp).2)) := by
    unfold apply_patch
    dsimp only
    rw [hpp]
  refine ⟨?_, ?_, ?_, ?_⟩
  · intro h
    rw [e1, if_pos h]
  · intro h
    rw [e1, if_neg (by omega)]
    exact apply_entries_applied _ _ _
  · intro h huv
    rw [e1, if_neg (by omega)]
    exact apply_entries_untouched _ _ _ _ huv
  · intro h hnd hmem hok
    rw [e1, if_neg (by omega)]
    exact apply_entries_value _ _ _ _ _ hnd hmem hok

/-- Witness for C5 at the specification's own test vectors. -/
theorem apply_patch_characterization_witness :
    apply_patch TaskSpec.default
      (.vdict [("policy_params",
        .vdict (List.replicate 33 ("k", PyVal.vnum 0)))]) =
      (TaskSpec.default, []) ∧
    (apply_patch TaskSpec.default
      (.vdict [("policy_params", .vdict [("default_speed", .vnum (8/10)),
        ("x", .vstr "nope"), ("y", .vbool true)])])).2 =
      ["policy_params.default_speed"] ∧
    aget (apply_patch TaskSpec.default
      (.vdict [("policy_params", .vdict [("default_speed", .vnum (8/10)),
        ("x", .vstr "nope"), ("y", .vbool true)])])).1.policy_params
      "default_speed" = some (8/10) ∧
    aget (apply_patch TaskSpec.default
      (.vdict [("policy_params", .vdict [("default_speed", .vnum (8/10)),
        ("x", .vstr "nope"), ("y", .vbool true)])])).1.policy_params "x" =
      aget TaskSpec.default.policy_params "x" := by
  refine ⟨?_, ?_, ?_, ?_⟩
  · exact (apply_patch_characterization TaskSpec.default
      [("policy_params", .vdict (List.replicate 33 ("k", PyVal.vnum 0)))]
      (List.replicate 33 ("k", PyVal.vnum 0)) "k" 0 rfl).1 (by decide)
  · with_unfolding_all
      exact (apply_patch_characterization TaskSpec.default
        [("policy_params", .vdict [("default_speed", .vnum (8/10)),
          ("x", .vstr "nope"), ("y", .vbool true)])]
        [("default_speed", .vnum (8/10)), ("x", .vstr "nope"),
          ("y", .vbool true)] "x" 0 rfl).2.1 (by decide)
  · with_unfolding_all
      exact (apply_patch_characterization TaskSpec.default
        [("policy_params", .vdict [("default_speed", .vnum (8/10)),
          ("x", .vstr "nope"), ("y", .vbool true)])]
        [("default_speed", .vnum (8/10)), ("x", .vstr "nope"),
          ("y", .vbool true)] "default_speed" (8/10) rfl).2.2.2 (by decide)
        (by decide) (List.mem_cons_self _ _) (by decide)
  · with_unfolding_all
      exact (apply_patch_characterization TaskSpec.default
        [("policy_params", .vdict [("default_speed", .vnum (8/10)),
          ("x", .vstr "nope"), ("y", .vbool true)])]
        [("default_speed", .vnum (8/10)), ("x", .vstr "nope"),
          ("y", .vbool true)] "x" 0 rfl).2.2.1 (by decide)
        (by
          intro v hv
          simp only [List.mem_cons, List.not_mem_nil, or_false,
            Prod.mk.injEq] at hv
          rcases hv with ⟨h, _⟩ | ⟨_, hv2⟩ | ⟨h, _⟩
          · exact absurd h (by decide)
          · subst hv2
            rfl
          · exact absurd h (by decide))

theorem sanitize_args_get? (args spec_args : List PyVal)
    (pp : List (String × ℚ)) (i : Nat) (sa ra : PyVal)
    (hs : spec_args[i]? = some sa) (hr : args[i]? = some ra) :
    (sanitize_args args spec_args pp)[i]? = some (sanitize_one pp sa ra) := by
  unfold sanitize_args
  rw [List.getElem?_map]
  have hz : (spec_args.zip args)[i]? = some (sa, ra) :=
    List.getElem?_zip_eq_some.mpr ⟨hs, hr⟩
  rw [hz]
  rfl

theorem sanitize_num_le_max (raw : PyVal) (name : String) (minv : Option PyVal)
    (b ds dtd : ℚ) :
    sanitize_num raw name minv (some (.vnum b)) ds dtd ≤ b := by
  dsimp only [sanitize_num, pyFloat, Option.isSome]
  exact min_le_right _ _

theorem sanitize_num_ge_min (raw : PyVal) (name : String) (a b ds dtd : ℚ)
    (hab : a ≤ b) :
    a ≤ sanitize_num raw name (some (.vnum a)) (some (.vnum b)) ds dtd := by
  dsimp only [sanitize_num, pyFloat, Option.isSome]
  exact le_min (le_max_right _ _) hab

theorem sanitize_num_ge_min_nomax (raw : PyVal) (name : String)
    (a ds dtd : ℚ) :
    a ≤ sanitize_num raw name (some (.vnum a)) none ds dtd := by
  dsimp only [sanitize_num, pyFloat, Option.isSome]
  exact le_max_right _ _

set_option maxHeartbeats 2000000 in
theorem sanitize_num_speed_le (raw : PyVal) (name : String)
    (qmin qmax : Option ℚ) (ds dtd : ℚ)
    (hs : speedName name = true) (hd : degreeName name = false)
    (hminle : ∀ a, qmin = some a → a ≤ ds) :
    sanitize_num raw name (qmin.map .vnum) (qmax.map .vnum) ds dtd ≤ ds := by
  cases qmin with
  | none =>
    cases qmax with
    | none =>
      dsimp only [sanitize_num, pyFloat, Option.map, Option.isSome]
      rw [hs, hd]
      simp only [eq_self_iff_true, if_true, Bool.false_eq_true, if_false]
      exact min_le_right _ _
    | some b =>
      dsimp only [sanitize_num, pyFloat, Option.map, Option.isSome]
      rw [hs, hd]
      simp only [eq_self_iff_true, if_true, Bool.false_eq_true, if_false]
      exact le_trans (min_le_left _ _) (min_le_right _ _)
  | some a =>
    have ha : a ≤ ds := hminle a rfl
    cases qmax with
    | none =>
      dsimp only [sanitize_num, pyFloat, Option.map, Option.isSome]
      rw [hs, hd]
      simp only [eq_self_iff_true, if_true, Bool.false_eq_true, if_false]
      exact max_le (min_le_right _ _) ha
    | some b =>
      dsimp only [sanitize_num, pyFloat, Option.map, Option.isSome]
      rw [hs, hd]
      simp only [eq_self_iff_true, if_true, Bool.false_eq_true, if_false]
      exact le_trans (min_le_left _ _) (max_le (min_le_right _ _) ha)

set_option maxHeartbeats 2000000 in
theorem sanitize_num_degree_abs (raw : PyVal) (name : String)
    (qmin qmax : Option ℚ) (ds dtd : ℚ)
    (hd : degreeName name = true) (hs : speedName name = false)
    (hminle : ∀ a, qmin = some a → a ≤ abs dtd)
    (hmaxge : ∀ b, qmax = some b → -(abs dtd) ≤ b) :
    abs (sanitize_num raw name (qmin.map .vnum) (qmax.map .vnum) ds dtd) ≤
      abs dtd := by
  rw [abs_le]
  have hdd : -(abs dtd) ≤ abs dtd := by
    have := abs_nonneg dtd
    linarith
  cases qmin with
  | none =>
    cases qmax with
    | none =>
      dsimp only [sanitize_num, pyFloat, Option.map, Option.isSome, pclamp]
      rw [hs, hd]
      simp only [eq_self_iff_true, if_true, Bool.false_eq_true, if_false]
      exact ⟨le_min hdd (le_max_left _ _), min_le_left _ _⟩
    | some b =>
      have hb := hmaxge b rfl
      dsimp only [sanitize_num, pyFloat, Option.map, Option.isSome, pclamp]
      rw [hs, hd]
      simp only [eq_self_iff_true, if_true, Bool.false_eq_true, if_false]
      exact ⟨le_min (le_min hdd (le_max_left _ _)) hb,
        le_trans (min_le_left _ _) (min_le_left _ _)⟩
  | some a =>
    have ha := hminle a rfl
    cases qmax with
    | none =>
      dsimp only [sanitize_num, pyFloat, Option.map, Option.isSome, pclamp]
      rw [hs, hd]
      simp only [eq_self_iff_true, if_true, Bool.false_eq_true, if_false]
      exact ⟨le_trans (le_min hdd (le_max_left _ _)) (le_max_left _ _),
        max_le (min_le_left _ _) ha⟩
    | some b =>
      have hb := hmaxge b rfl
      dsimp only [sanitize_num, pyFloat, Option.map, Option.isSome, pclamp]
      rw [hs, hd]
      simp only [eq_self_iff_true, if_true, Bool.false_eq_true, if_false]
      exact ⟨le_min (le_trans (le_min hdd (le_max_left _ _)) (le_max_left _ _)) hb,
        le_trans (min_le_left _ _) (max_le (min_le_left _ _) ha)⟩

/-- Claim C8 counterexample: a float speed argument declared with bounds
`min=0.7, max=1.0`, a policy `default_speed` of `0.5`, and a requested value
`0.9` sanitizes to `0.7` — the declared minimum is re-applied *after* the
speed cap, so the sanitized value exceeds `default_speed`, contradicting the
claim that it is at most `default_speed` and within the declared bounds. -/
theorem sanitize_speed_cap_cex :
    sanitize_args [.vnum (9/10)]
      [.vdict [("name", .vstr "speed"), ("type", .vstr "float"),
               ("min", .vnum (7/10)), ("max", .vnum 1)]]
      [("default_speed", 1/2)] = [.vnum (7/10)] ∧
    ¬ ((7/10 : ℚ) ≤ 1/2) := by
  constructor
  · with_unfolding_all rfl
  · with_unfolding_all decide

/-- Claim C8 (amended): for every declared numeric argument of the resolved
command, the value produced by the sanitizer before integer rounding (the
`RUN` step carries `.vnum` of it for float args, its round-half-to-even for
int args) always respects a declared max; respects a declared min whenever
`min ≤ max` or no max is declared; is at most `default_speed` for
speed/throttle/power-named args provided the declared min (when present)
does not exceed `default_speed`; and has magnitude at most
`abs default_turn_degrees` for degree/angle-named args provided the declared
bounds do not force it out. -/
theorem sanitize_args_policy_caps (args spec_args : List PyVal)
    (pp : List (String × ℚ)) (i : Nat) (kv : List (String × PyVal))
    (raw : PyVal) (nm : String) (qmin qmax : Option ℚ)
    (hspec : spec_args[i]? = some (.vdict kv))
    (hraw : args[i]? = some raw)
    (hnm : (pyStrOr (dget kv "name") "").toLower = nm)
    (hmin : dget kv "min" = qmin.map PyVal.vnum)
    (hmax : dget kv "max" = qmax.map PyVal.vnum) :
    (((pyStrOr (dget kv "type") "").toLower = "float" →
      (sanitize_args args spec_args pp)[i]? =
        some (.vnum (sanitize_num raw nm (qmin.map .vnum) (qmax.map .vnum)
          (getD pp "default_speed" (1/2)) (getD pp "default_turn_degrees" 12)))) ∧
     ((pyStrOr (dget kv "type") "").toLower = "int" →
      (sanitize_args args spec_args pp)[i]? =
        some (.vnum (pyRound (sanitize_num raw nm (qmin.map .vnum)
          (qmax.map .vnum) (getD pp "default_speed" (1/2))
          (getD pp "default_turn_degrees" 12)))))) ∧
    (∀ b, qmax = some b →
      sanitize_num raw nm (qmin.map .vnum) (qmax.map .vnum)
        (getD pp "default_speed" (1/2)) (getD pp "default_turn_degrees" 12) ≤ b) ∧
    (∀ a b, qmin = some a → qmax = some b → a ≤ b →
      a ≤ sanitize_num raw nm (qmin.map .vnum) (qmax.map .vnum)
        (getD pp "default_speed" (1/2)) (getD pp "default_turn_degrees" 12)) ∧
    (∀ a, qmin = some a → qmax = none →
      a ≤ sanitize_num raw nm (qmin.map .vnum) (qmax.map .vnum)
        (getD pp "default_speed" (1/2)) (getD pp "default_turn_degrees" 12)) ∧
    (speedName nm = true → degreeName nm = false →
      (∀ a, qmin = some a → a ≤ getD pp "default_speed" (1/2)) →
      sanitize_num raw nm (qmin.map .vnum) (qmax.map .vnum)
        (getD pp "default_speed" (1/2)) (getD pp "default_turn_degrees" 12) ≤
        getD pp "default_speed" (1/2)) ∧
    (degreeName nm = true → speedName nm = false →
      (∀ a, qmin = some a → a ≤ abs (getD pp "default_turn_degrees" 12)) →
      (∀ b, qmax = some b → -(abs (getD pp "default_turn_degrees" 12)) ≤ b) →
      abs (sanitize_num raw nm (qmin.map .vnum) (qmax.map .vnum)
        (getD pp "default_speed" (1/2)) (getD pp "default_turn_degrees" 12)) ≤
        abs (getD pp "default_turn_degrees" 12)) := by
  refine ⟨⟨?_, ?_⟩, ?_, ?_, ?_, ?_, ?_⟩
  · intro ht
    rw [sanitize_args_get? args spec_args pp i _ _ hspec hraw]
    unfold sanitize_one
    dsimp only
    rw [ht, hnm, hmin, hmax]
    norm_num
    intro hcontra
    exact absurd hcontra (by decide)
  · intro ht
    rw [sanitize_args_get? args spec_args pp i _ _ hspec hraw]
    unfold sanitize_one
    dsimp only
    rw [ht, hnm, hmin, hmax]
    norm_num
  · intro b hb
    subst hb
    exact sanitize_num_le_max raw nm (qmin.map .vnum) b _ _
  · intro a b ha hb hab
    subst ha
    subst hb
    exact sanitize_num_ge_min raw nm a b _ _ hab
  · intro a ha hb
    subst ha
    subst hb
    exact sanitize_num_ge_min_nomax raw nm a _ _
  · intro hs hd hminle
    exact sanitize_num_speed_le raw nm qmin qmax _ _ hs hd hminle
  · intro hd hs hminle hmaxge
    exact sanitize_num_degree_abs raw nm qmin qmax _ _ hd hs hminle hmaxge

/-- Witness for C8 at a concrete input (a bounded float speed argument). -/
theorem sanitize_args_policy_caps_witness :
    (sanitize_args [.vnum (9/10)]
      [.vdict [("name", .vstr "speed"), ("type", .vstr "float"),
               ("min", .vnum (1/5)), ("max", .vnum 1)]]
      [("default_speed", 1/2)])[0]? = some (.vnum (1/2)) ∧
    sanitize_num (.vnum (9/10)) "speed" (some (.vnum (1/5))) (some (.vnum 1))
      (1/2) 12 ≤ 1 ∧
    (1/5 : ℚ) ≤ sanitize_num (.vnum (9/10)) "speed" (some (.vnum (1/5)))
      (some (.vnum 1)) (1/2) 12 ∧
    sanitize_num (.vnum (9/10)) "speed" (some (.vnum (1/5))) (some (.vnum 1))
      (1/2) 12 ≤ 1/2 := by
  refine ⟨?_, ?_, ?_, ?_⟩
  · with_unfolding_all
      exact (sanitize_args_policy_caps [.vnum (9/10)]
        [.vdict [("name", .vstr "speed"), ("type", .vstr "float"),
                 ("min", .vnum (1/5)), ("max", .vnum 1)]]
        [("default_speed", 1/2)] 0
        [("name", .vstr "speed"), ("type", .vstr "float"),
         ("min", .vnum (1/5)), ("max", .vnum 1)]
        (.vnum (9/10)) "speed" (some (1/5)) (some 1)
        rfl rfl rfl rfl rfl).1.1 rfl
  · with_unfolding_all
      exact (sanitize_args_policy_caps [.vnum (9/10)]
        [.vdict [("name", .vstr "speed"), ("type", .vstr "float"),
                 ("min", .vnum (1/5)), ("max", .vnum 1)]]
        [("default_speed", 1/2)] 0
        [("name", .vstr "speed"), ("type", .vstr "float"),
         ("min", .vnum (1/5)), ("max", .vnum 1)]
        (.vnum (9/10)) "speed" (some (1/5)) (some 1)
        rfl rfl rfl rfl rfl).2.1 1 rfl
  · with_unfolding_all
      exact (sanitize_args_policy_caps [.vnum (9/10)]
        [.vdict [("name", .vstr "speed"), ("type", .vstr "float"),
                 ("min", .vnum (1/5)), ("max", .vnum 1)]]
        [("default_speed", 1/2)] 0
        [("name", .vstr "speed"), ("type", .vstr "float"),
         ("min", .vnum (1/5)), ("max", .vnum 1)]
        (.vnum (9/10)) "speed" (some (1/5)) (some 1)
        rfl rfl rfl rfl rfl).2.2.1 (1/5) 1 rfl rfl (by with_unfolding_all decide)
  · with_unfolding_all
      exact (sanitize_args_policy_caps [.vnum (9/10)]
        [.vdict [("name", .vstr "speed"), ("type", .vstr "float"),
                 ("min", .vnum (1/5)), ("max", .vnum 1)]]
        [("default_speed", 1/2)] 0
        [("name", .vstr "speed"), ("type", .vstr "float"),
         ("min", .vnum (1/5)), ("max", .vnum 1)]
        (.vnum (9/10)) "speed" (some (1/5)) (some 1)
        rfl rfl rfl rfl rfl).2.2.2.2.1 (by decide) (by decide)
        (by
          intro a ha
          injection ha with ha2
          subst ha2
          with_unfolding_all decide)

/-- Claim C1: whenever the tracker output has no bbox or its visibility
confidence is strictly below the task's `visible_conf_min` threshold, the
shield overrides with reason `not_visible` and the plan `[STOP]`, regardless
of the edge margin, the capability map, or the manifest. -/
theorem shield_not_visible (t : TrackerOutput) (spec : TaskSpec)
    (caps : CapabilityMapping) (m : List (String × PyVal))
    (h : t.bbox = none ∨
      t.visibility_confidence < safetyGet spec "visible_conf_min" (12/100)) :
    maybe_override t spec caps m = some ⟨true, "not_visible", [.stop]⟩ := by
  unfold maybe_override
  rcases h with h | h
  · rw [h]
  · cases hb : t.bbox with
    | none => rfl
    | some b => simp [h]

/-- Witness for C1 at a concrete input. -/
theorem shield_not_visible_witness :
    maybe_override ⟨none, 0, 0⟩ TaskSpec.default {} [] =
      some ⟨true, "not_visible", [.stop]⟩ :=
  shield_not_visible _ _ _ _ (Or.inl rfl)

/-- Claim C2: every plan the planner returns (when it returns one) is either
`[STOP]` or `[RUN, STOP]` — only the first step of the service response is
honored and a `RUN` always gains a trailing `STOP` — and the conservative
fallback planner always returns `[STOP]`. -/
theorem planner_plan_shape (hasKey : Bool)
    (svc : Except String (List (String × PyVal)))
    (m : List (String × PyVal)) (spec : TaskSpec) (p : List PlanStep) (r : String)
    (h : plan_next_step_openai hasKey svc m spec = Except.ok (p, r)) :
    (p = [.stop] ∨ ∃ tg tok args d, p = [.run tg tok args d, .stop]) ∧
    ∀ instr, (plan_next_step_fallback instr).1 = [.stop] := by
  constructor
  · unfold plan_next_step_openai at h
    split at h
    · simp only [Except.ok.injEq, Prod.mk.injEq] at h
      exact Or.inl h.1.symm
    · split at h
      · exact Except.noConfusion h
      · split at h
        · rename_i plan reason hpl hrs
          cases hn : List.filterMap normalize_step (List.take 1 plan) with
          | nil =>
            rw [hn] at h
            simp only [Except.ok.injEq, Prod.mk.injEq] at h
            exact Or.inl h.1.symm
          | cons s rest =>
            rw [hn] at h
            cases s with
            | stop =>
              simp only [Except.ok.injEq, Prod.mk.injEq] at h
              exact Or.inl h.1.symm
            | run tg tok args d =>
              simp only [Except.ok.injEq, Prod.mk.injEq] at h
              exact Or.inr ⟨_, _, _, _, h.1.symm⟩
        · simp only [Except.ok.injEq, Prod.mk.injEq] at h
          exact Or.inl h.1.symm
  · intro instr
    unfold plan_next_step_fallback
    split <;> rfl

/-- Witness for C2 at a concrete input (no API key configured). -/
theorem planner_plan_shape_witness :
    ([PlanStep.stop] = [PlanStep.stop] ∨
      ∃ tg tok args d, [PlanStep.stop] = [PlanStep.run tg tok args d, PlanStep.stop]) ∧
    (plan_next_step_fallback "go forward").1 = [PlanStep.stop] :=
  ⟨(planner_plan_shape false (Except.error "down") [] TaskSpec.default
      [PlanStep.stop] "openai_disabled_missing_api_key" rfl).1,
   (planner_plan_shape false (Except.error "down") [] TaskSpec.default
      [PlanStep.stop] "openai_disabled_missing_api_key" rfl).2 "go forward"⟩

/-- Claim C3 counterexample: with an edge-threatened, visible, in-ROI bbox,
a truthy mobility target, a strafe token whose command spec does **not**
resolve, and a turn token whose spec **does** resolve, the shield returns
`[STOP]` (reason `edge_strafe_missing_spec`) — it never falls through to the
turn command, contradicting the claimed preference order, which predicts
`[RUN(turn), STOP]` here. -/
theorem shield_edge_preference_cex :
    maybe_override ⟨some ⟨2/5, 2/5, 1/10, 1/10⟩, 1/2, 0⟩ TaskSpec.default
      ⟨some "m", none, none, some "T", some "S", none, none, none, none⟩
      [("nodes", .vlist [.vdict [("name", .vstr "m"), ("node_id", .vstr "m1"),
        ("commands", .vlist [.vdict [("token", .vstr "T"),
          ("args", .vlist [])]])]])] =
      some ⟨true, "edge_strafe_missing_spec", [.stop]⟩ ∧
    pyTruthy ((get_command_spec
      [("nodes", .vlist [.vdict [("name", .vstr "m"), ("node_id", .vstr "m1"),
        ("commands", .vlist [.vdict [("token", .vstr "T"),
          ("args", .vlist [])]])]])] "m" "T").getD .vnone) = true := by
  constructor
  · with_unfolding_all rfl
  · with_unfolding_all rfl

/-- Claim C3 (amended): under the edge-correction preconditions (visible,
in-ROI bbox, low edge margin, truthy mobility target), the shield prefers the
strafe token when the capability map exposes one — committing to it even if
its command spec does not resolve, in which case the plan is `[STOP]` and the
turn token is not consulted — else the turn token, with `[RUN, STOP]` exactly
when the chosen token's spec resolves, else `[STOP]`; every corrective `RUN`
carries the configured duration clamped into `[80, max_step_ms]` and the
argument values chosen from the resolved spec. -/
theorem shield_edge_preference (t : TrackerOutput) (spec : TaskSpec)
    (caps : CapabilityMapping) (m : List (String × PyVal)) (b : BBox)
    (cmd_s cmd_t : PyVal)
    (hb : t.bbox = some b)
    (hvis : ¬ t.visibility_confidence < safetyGet spec "visible_conf_min" (12/100))
    (hroi : contains spec.camera_roi b = true)
    (hedge : t.edge_margin < getD spec.policy_params "center_margin" (12/100))
    (hmob : strTruthy caps.mobility_target = true) :
    (strTruthy caps.strafe_token = true →
      get_command_spec m (caps.mobility_target.getD "") (caps.strafe_token.getD "") =
        some cmd_s →
      pyTruthy cmd_s = true →
      maybe_override t spec caps m = some ⟨true,
        "edge_strafe_" ++
          (if b.centerX > spec.home_roi.centerX then "left" else "right"),
        [.run (caps.mobility_target.getD "") (caps.strafe_token.getD "")
          (choose_arg_values cmd_s spec.policy_params
            (some (if b.centerX > spec.home_roi.centerX then "L" else "R")))
          (some (pclamp (getD spec.policy_params "strafe_duration_ms" 220) 80
            (safetyGet spec "max_step_ms" 800))), .stop]⟩) ∧
    (strTruthy caps.strafe_token = true →
      ((get_command_spec m (caps.mobility_target.getD "")
        (caps.strafe_token.getD "")).map pyTruthy).getD false = false →
      maybe_override t spec caps m =
        some ⟨true, "edge_strafe_missing_spec", [.stop]⟩) ∧
    (strTruthy caps.strafe_token = false → strTruthy caps.turn_token = true →
      get_command_spec m (caps.mobility_target.getD "") (caps.turn_token.getD "") =
        some cmd_t →
      pyTruthy cmd_t = true →
      maybe_override t spec caps m = some ⟨true,
        "edge_turn_" ++
          (if b.centerX > spec.home_roi.centerX then "left" else "right"),
        [.run (caps.mobility_target.getD "") (caps.turn_token.getD "")
          (choose_arg_values cmd_t spec.policy_params
            (some (if b.centerX > spec.home_roi.centerX then "left" else "right")))
          (some (pclamp (getD spec.policy_params "turn_duration_ms" 220) 80
            (safetyGet spec "max_step_ms" 800))), .stop]⟩) ∧
    (strTruthy caps.strafe_token = false → strTruthy caps.turn_token = true →
      ((get_command_spec m (caps.mobility_target.getD "")
        (caps.turn_token.getD "")).map pyTruthy).getD false = false →
      maybe_override t spec caps m =
        some ⟨true, "edge_turn_missing_spec", [.stop]⟩) ∧
    (strTruthy caps.strafe_token = false → strTruthy caps.turn_token = false →
      maybe_override t spec caps m =
        some ⟨true, "edge_no_motion_tokens", [.stop]⟩) := by
  refine ⟨?_, ?_, ?_, ?_, ?_⟩
  · intro hst hcs hct
    unfold maybe_override
    rw [hb]
    simp only [if_neg hvis, hroi, Bool.not_true, Bool.false_eq_true, if_false,
      if_pos hedge, hmob, hst, hcs, Bool.not_false, if_true]
    by_cases hdir : b.centerX > spec.home_roi.centerX <;> simp [hdir, hct]
  · intro hst hcs
    unfold maybe_override
    rw [hb]
    simp only [if_neg hvis, hroi, Bool.not_true, Bool.false_eq_true, if_false,
      if_pos hedge, hmob, hst, hcs, Bool.not_false, if_true]
  · intro hst htt hcs hct
    unfold maybe_override
    rw [hb]
    simp only [if_neg hvis, hroi, Bool.not_true, Bool.false_eq_true, if_false,
      if_pos hedge, hmob, hst, htt, hcs, Bool.not_false, if_true]
    by_cases hdir : b.centerX > spec.home_roi.centerX <;> simp [hdir, hct]
  · intro hst htt hcs
    unfold maybe_override
    rw [hb]
    simp only [if_neg hvis, hroi, Bool.not_true, Bool.false_eq_true, if_false,
      if_pos hedge, hmob, hst, htt, hcs, Bool.not_false, if_true]
  · intro hst htt
    unfold maybe_override
    rw [hb]
    simp only [if_neg hvis, hroi, Bool.not_true, Bool.false_eq_true, if_false,
      if_pos hedge, hmob, hst, htt, Bool.not_false, if_true]

/-- Witness for C3 at a concrete input (strafe capability present and
resolvable). -/
theorem shield_edge_preference_witness :
    maybe_override ⟨some ⟨2/5, 2/5, 1/10, 1/10⟩, 1/2, 0⟩ TaskSpec.default
      ⟨some "m", none, none, some "T", some "S", none, none, none, none⟩
      [("nodes", .vlist [.vdict [("name", .vstr "m"), ("node_id", .vstr "m1"),
        ("commands", .vlist [.vdict [("token", .vstr "S"), ("args", .vlist [])],
          .vdict [("token", .vstr "T"), ("args", .vlist [])]])]])] =
      some ⟨true, "edge_strafe_right",
        [.run "m" "S"
          (choose_arg_values (.vdict [("token", .vstr "S"), ("args", .vlist [])])
            TaskSpec.default.policy_params (some "R")) (some 220), .stop]⟩ := by
  with_unfolding_all
    exact (shield_edge_preference ⟨some ⟨2/5, 2/5, 1/10, 1/10⟩, 1/2, 0⟩
      TaskSpec.default
      ⟨some "m", none, none, some "T", some "S", none, none, none, none⟩
      [("nodes", .vlist [.vdict [("name", .vstr "m"), ("node_id", .vstr "m1"),
        ("commands", .vlist [.vdict [("token", .vstr "S"), ("args", .vlist [])],
          .vdict [("token", .vstr "T"), ("args", .vlist [])]])]])]
      ⟨2/5, 2/5, 1/10, 1/10⟩
      (.vdict [("token", .vstr "S"), ("args", .vlist [])])
      (.vdict [("token", .vstr "T"), ("args", .vlist [])])
      rfl (by decide) rfl (by decide) rfl).1 rfl rfl rfl

theorem pclamp_le_hi (v lo hi : ℚ) : pclamp v lo hi ≤ hi := min_le_left _ _

theorem pclamp_ge_lo (v lo hi : ℚ) (h : lo ≤ hi) : lo ≤ pclamp v lo hi :=
  le_min h (le_max_left _ _)

/-- `_as_norm_rect` preserves rectangle well-formedness when its fallback
default is well-formed. -/
theorem goodRect_as_norm_rect (v : PyVal) (d : Rect) (hd : GoodRect d) :
    GoodRect (as_norm_rect v d) := by
  unfold as_norm_rect
  split
  · exact hd
  · rename_i x0 y0 w0 h0 heq
    dsimp only
    split
    · exact hd
    · rename_i hwh
      push_neg at hwh
      obtain ⟨hw, hh⟩ := hwh
      have hx0 : (0 : ℚ) ≤ pclamp x0 0 1 := pclamp_ge_lo _ _ _ (by norm_num)
      have hx1 : pclamp x0 0 1 ≤ 1 := pclamp_le_hi _ _ _
      have hy0 : (0 : ℚ) ≤ pclamp y0 0 1 := pclamp_ge_lo _ _ _ (by norm_num)
      have hy1 : pclamp y0 0 1 ≤ 1 := pclamp_le_hi _ _ _
      have hwle : pclamp w0 0 (1 - pclamp x0 0 1) ≤ 1 - pclamp x0 0 1 :=
        pclamp_le_hi _ _ _
      have hhle : pclamp h0 0 (1 - pclamp y0 0 1) ≤ 1 - pclamp y0 0 1 :=
        pclamp_le_hi _ _ _
      exact ⟨hx0, hx1, hy0, hy1, hw, hh, by linarith, by linarith⟩

/-- Claim C9: every `TaskSpec` produced by loading a taskspec document has
well-formed normalized camera and home ROIs, and `_as_norm_rect` silently
replaces a rectangle that is not a dict of four Python numbers, or whose
clamped width or height degenerates to zero, by the supplied default. -/
theorem load_taskspec_rois_normalized (raw : PyVal) (ov : Option String)
    (spec : TaskSpec) (v : PyVal) (d : Rect) (x0 y0 w0 h0 : ℚ)
    (hd : GoodRect d)
    (h : load_taskspec_parsed raw ov = Except.ok spec) :
    (GoodRect spec.camera_roi ∧ GoodRect spec.home_roi) ∧
    GoodRect (as_norm_rect v d) ∧
    (rectNums v = none → as_norm_rect v d = d) ∧
    (rectNums v = some (x0, y0, w0, h0) →
      pclamp w0 0 (1 - pclamp x0 0 1) ≤ 0 ∨ pclamp h0 0 (1 - pclamp y0 0 1) ≤ 0 →
      as_norm_rect v d = d) := by
  refine ⟨?_, goodRect_as_norm_rect v d hd, ?_, ?_⟩
  · unfold load_taskspec_parsed at h
    split at h
    · injection h with h'
      subst h'
      constructor
      · exact goodRect_as_norm_rect _ _ (by norm_num [GoodRect, TaskSpec.default])
      · exact goodRect_as_norm_rect _ _ (by norm_num [GoodRect, TaskSpec.default])
    · exact Except.noConfusion h
  · intro hn
    unfold as_norm_rect
    rw [hn]
  · intro hn hdeg
    unfold as_norm_rect
    rw [hn]
    dsimp only
    rw [if_pos hdeg]

/-- Witness for C9 at concrete inputs: a loaded empty document, a non-dict
rectangle, and a rectangle whose clamped width degenerates to zero. -/
theorem load_taskspec_rois_normalized_witness :
    (GoodRect TaskSpec.default.camera_roi ∧ GoodRect TaskSpec.default.home_roi) ∧
    GoodRect (as_norm_rect (.vstr "oops") ⟨0, 0, 1, 1⟩) ∧
    as_norm_rect (.vstr "oops") ⟨0, 0, 1, 1⟩ = ⟨0, 0, 1, 1⟩ ∧
    as_norm_rect (.vdict [("x", .vnum 1), ("y", .vnum 0), ("w", .vnum 1),
      ("h", .vnum 1)]) ⟨0, 0, 1, 1⟩ = ⟨0, 0, 1, 1⟩ :=
  ⟨(load_taskspec_rois_normalized (.vdict []) none TaskSpec.default (.vstr "oops")
      ⟨0, 0, 1, 1⟩ 0 0 0 0 (by norm_num [GoodRect]) rfl).1,
   (load_taskspec_rois_normalized (.vdict []) none TaskSpec.default (.vstr "oops")
      ⟨0, 0, 1, 1⟩ 0 0 0 0 (by norm_num [GoodRect]) rfl).2.1,
   (load_taskspec_rois_normalized (.vdict []) none TaskSpec.default (.vstr "oops")
      ⟨0, 0, 1, 1⟩ 0 0 0 0 (by norm_num [GoodRect]) rfl).2.2.1 rfl,
   (load_taskspec_rois_normalized (.vdict []) none TaskSpec.default
      (.vdict [("x", .vnum 1), ("y", .vnum 0), ("w", .vnum 1), ("h", .vnum 1)])
      ⟨0, 0, 1, 1⟩ 1 0 1 1 (by norm_num [GoodRect]) rfl).2.2.2
     (by with_unfolding_all rfl) (by with_unfolding_all decide)⟩

/-- Claim C4 counterexample: when the API key is present and the planning
service call fails (unreachable service, or non-JSON / non-object output —
all of which `responses_json_schema` surfaces as a raised exception),
`plan_next_step_openai` propagates the exception instead of returning the
claimed `[STOP]` fallback plan: there is no try/except around the call in
`policy.plan_next_step_openai`. -/
theorem planner_raises_on_transport_cex :
    plan_next_step_openai true (.error "connection refused") [] TaskSpec.default =
      .error "connection refused" := rfl

/-- Claim C4 (amended): the planner degrades to `[STOP]` with a fallback
reason when the API key is missing and when the service response is a JSON
object lacking a well-typed plan list or reason string; but when the service
is unreachable or returns non-JSON / non-object output, the exception
propagates out of the planner instead. -/
theorem planner_fallback_behavior (svc : Except String (List (String × PyVal)))
    (m : List (String × PyVal)) (spec : TaskSpec) (e : String)
    (out : List (String × PyVal)) (hbad : planWellTyped out = false) :
    plan_next_step_openai false svc m spec =
      .ok ([.stop], "openai_disabled_missing_api_key") ∧
    plan_next_step_openai true (.error e) m spec = .error e ∧
    plan_next_step_openai true (.ok out) m spec =
      .ok ([.stop], "openai_invalid_output") := by
  refine ⟨rfl, rfl, ?_⟩
  unfold plan_next_step_openai
  rw [if_neg (by simp)]
  dsimp only
  split
  · rename_i plan reason hpl hrs
    unfold planWellTyped at hbad
    rw [hpl, hrs] at hbad
    exact absurd hbad (by simp)
  · rfl

/-- Witness for C4 at concrete inputs. -/
theorem planner_fallback_behavior_witness :
    plan_next_step_openai false (.error "boom") [] TaskSpec.default =
      .ok ([.stop], "openai_disabled_missing_api_key") ∧
    plan_next_step_openai true (.error "boom") [] TaskSpec.default =
      .error "boom" ∧
    plan_next_step_openai true (.ok [("reason", .vnum 3)]) [] TaskSpec.default =
      .ok ([.stop], "openai_invalid_output") :=
  planner_fallback_behavior (.error "boom") [] TaskSpec.default "boom"
    [("reason", .vnum 3)] rfl

/-- Claim C10: `home_ok` is `False` whenever the bbox is absent, and `True`
exactly when a bbox is present and fully contained in the home region. -/
theorem home_ok_none_false_and_contained (bb : Option BBox) (spec : TaskSpec) :
    home_ok none spec = false ∧
    (home_ok bb spec = true ↔ ∃ b, bb = some b ∧ contains spec.home_roi b = true) := by
  refine ⟨rfl, ?_⟩
  cases bb <;> simp [home_ok]

end Daemon
